import Mathlib

/-!
Verification of the geometric core of the 2D optics sandbox
(`src/scene.ts`, `src/ray.ts`, `src/virtual.ts`).

Embedding conventions (each definition is a direct translation of the
TypeScript function of the same name):

* Coordinates are exact rationals (`ℚ`); the source computes with JS
  doubles and the spec idealises them to exact real arithmetic.
* The source normalises direction/normal vectors with `vec2.normalize`
  (a division by a square root, which is irrational).  Every use of a
  normalised vector in the source is of the form
  `x − 2·(x·n̂)·n̂` with `n̂ = n/‖n‖`; we keep `n` unnormalised and use the
  algebraically identical form `x − 2·(x·n)/(n·n)·n`, which stays in `ℚ`.
  When `n = 0`, gl-matrix `normalize` leaves the zero vector unchanged and
  the source reflects by `−2·0·0 = 0`; in Lean division by zero is zero,
  so the translated form agrees there as well.
* JS string truthiness (`if (x)` with `x : string | undefined`) is
  `strTruthy : Option String → Bool` (`undefined` and `""` are falsy).
* `trace` casts a fan of 128 directions `(cos θ, sin θ)`; those are
  transcendental numbers, so the direction fan is a parameter `dirs` of
  the embedded `trace`, and all theorems quantify over every direction
  list, covering the source's fixed fan.
-/

namespace Optics

/-- 2D point / vector (`vec2` of gl-matrix). -/
abbrev Point : Type := ℚ × ℚ

/-- `Scene.Mirror`: id plus the two segment endpoints.
`end` is a Lean keyword, so the field is called `endp`. -/
structure Mirror where
  id : String
  start : Point
  endp : Point
deriving DecidableEq

/-- `Scene.Player`: the `tag : 'player'` literal is omitted (it carries no
data); only the position remains. -/
structure Player where
  position : Point
deriving DecidableEq

/-- `Scene.Entity`: id, position and the stored triangle vertices used for
intersection tests. -/
structure Entity where
  id : String
  position : Point
  vertices : Point × Point × Point
deriving DecidableEq

/-- `Scene.Scene`: immutable scene snapshot. -/
structure Scene where
  player : Player
  entities : List Entity
  mirrors : List Mirror
deriving DecidableEq

/-- `Scene.PLAYER_RADIUS`. -/
def PLAYER_RADIUS : ℚ := 12

/-- `Scene.ENTITY_SIZE`. -/
def ENTITY_SIZE : ℚ := 8

/-- `Scene.entity`: builds an entity with its derived triangle
(apex above the centre, two base corners below). -/
def entityAt (pos : Point) (id : String) : Entity :=
  { id := id
    position := pos
    vertices :=
      ((pos.1, pos.2 - ENTITY_SIZE),
       (pos.1 - ENTITY_SIZE, pos.2 + ENTITY_SIZE),
       (pos.1 + ENTITY_SIZE, pos.2 + ENTITY_SIZE)) }

/-- JS truthiness of `x : string | undefined`: `undefined` and the empty
string are falsy.  Used for `if (intersection.mirrorId)` and similar. -/
def strTruthy : Option String → Bool
  | none => false
  | some s => s ≠ ""

/-! ## Virtual image generator (`src/virtual.ts`) -/

/-- `Virtual.VirtualImage.originalType`. -/
inductive OriginalType where
  | player
  | entity
  | mirror
deriving DecidableEq

/-- `Virtual.VirtualImage`.  `mirrorData` is the optional reflected
segment, present only for mirror images. -/
structure VirtualImage where
  originalId : String
  originalType : OriginalType
  position : Point
  bounces : ℕ
  isVisible : Bool
  mirrorChain : List String
  virtualRoom : ℕ
  mirrorData : Option (Point × Point)
deriving DecidableEq

/-- The room state threaded through `calculateVirtualRoomsRecursive`
(the anonymous `{player, entities, mirrors}` record of the source). -/
structure Room where
  player : Player
  entities : List Entity
  mirrors : List Mirror
deriving DecidableEq

/-- `Virtual.reflectPointAcrossMirror`: reflect a point across the infinite
line through the mirror segment.  The source normalises the mirror
direction, takes the left normal `n̂`, and computes
`point + n̂·(−2·((point−start)·n̂))`; with the unnormalised normal
`n = (−dy, dx)` and `len2 = n·n` this is exactly
`point − (2·((point−start)·n)/len2)·n`, the form used here. -/
def reflectPointAcrossMirror (point : Point) (mirror : Mirror) : Point :=
  let dx := mirror.endp.1 - mirror.start.1
  let dy := mirror.endp.2 - mirror.start.2
  let len2 := dx * dx + dy * dy
  let nx := -dy
  let ny := dx
  let t := (point.1 - mirror.start.1) * nx + (point.2 - mirror.start.2) * ny
  (point.1 - 2 * t / len2 * nx, point.2 - 2 * t / len2 * ny)

/-- `Virtual.reflectMirrorAcrossMirror`: reflect both endpoints, keep the
id. -/
def reflectMirrorAcrossMirror (mirror reflectingMirror : Mirror) : Mirror :=
  { id := mirror.id
    start := reflectPointAcrossMirror mirror.start reflectingMirror
    endp := reflectPointAcrossMirror mirror.endp reflectingMirror }

/-- `Virtual.isPointInBounds`: the expanded validity rectangle
`[-width, 2·width] × [-height, 2·height]`. -/
def isPointInBounds (bounds : Point) (point : Point) : Bool :=
  decide (point.1 ≥ -bounds.1 ∧ point.1 ≤ bounds.1 * 2 ∧
          point.2 ≥ -bounds.2 ∧ point.2 ≤ bounds.2 * 2)

/-- `Virtual.createVirtualRoom`: the images directly emitted for one
reflecting mirror — the reflected player and entities (each gated on its
own position being in bounds) followed by every current-room mirror's
reflection (gated on its start, end or midpoint being in bounds; the
emitted position is the midpoint). -/
def createVirtualRoom (bounds : Point) (currentRoomState : Room)
    (reflectingMirror : Mirror) (roomNumber : ℕ) (mirrorChain : List String) :
    List VirtualImage :=
  (let virtualPlayer :=
    reflectPointAcrossMirror currentRoomState.player.position reflectingMirror
   if isPointInBounds bounds virtualPlayer then
    [{ originalId := "player"
       originalType := .player
       position := virtualPlayer
       bounces := roomNumber
       isVisible := true
       mirrorChain := mirrorChain ++ [reflectingMirror.id]
       virtualRoom := roomNumber
       mirrorData := none }]
   else []) ++
  currentRoomState.entities.filterMap (fun entity =>
    let virtualEntity := reflectPointAcrossMirror entity.position reflectingMirror
    if isPointInBounds bounds virtualEntity then
      some { originalId := entity.id
             originalType := .entity
             position := virtualEntity
             bounces := roomNumber
             isVisible := true
             mirrorChain := mirrorChain ++ [reflectingMirror.id]
             virtualRoom := roomNumber
             mirrorData := none }
    else none) ++
  currentRoomState.mirrors.filterMap (fun mirror =>
    let virtualMirror := reflectMirrorAcrossMirror mirror reflectingMirror
    let mirrorCenter : Point :=
      ((virtualMirror.start.1 + virtualMirror.endp.1) / 2,
       (virtualMirror.start.2 + virtualMirror.endp.2) / 2)
    if isPointInBounds bounds virtualMirror.start ||
       isPointInBounds bounds virtualMirror.endp ||
       isPointInBounds bounds mirrorCenter then
      some { originalId := mirror.id
             originalType := .mirror
             position := mirrorCenter
             bounces := roomNumber
             isVisible := true
             mirrorChain := mirrorChain ++ [reflectingMirror.id]
             virtualRoom := roomNumber
             mirrorData := some (virtualMirror.start, virtualMirror.endp) }
    else none)

/-- The original mirrors still usable as reflecting mirror for a given
chain: the source's `for … { if (mirrorChain.includes(mirror.id)) continue;
… }` iterates exactly over this filtered list, in order. -/
def availableMirrors (originalMirrors : List Mirror) (mirrorChain : List String) :
    List Mirror :=
  originalMirrors.filter (fun mirror => decide (mirror.id ∉ mirrorChain))

/-- The virtual room built for the next recursion level: player, entities
and mirrors of the current room reflected across `mirror` (entity vertices
are carried over unchanged, as in the source's object spread). -/
def nextRoom (currentRoom : Room) (mirror : Mirror) : Room :=
  { player := { position := reflectPointAcrossMirror currentRoom.player.position mirror }
    entities := currentRoom.entities.map (fun entity =>
      { entity with position := reflectPointAcrossMirror entity.position mirror })
    mirrors := currentRoom.mirrors.map (fun m => reflectMirrorAcrossMirror m mirror) }

/-- `Virtual.calculateVirtualRoomsRecursive`: for each original mirror not
yet in the chain, emit the direct images of the room reflected across it,
then recurse into the reflected room with the mirror's id appended to the
chain.  The source's `for`/`continue` loop is the `flatMap` over
`availableMirrors`. -/
def calculateVirtualRoomsRecursive (bounds : Point) (currentRoom : Room)
    (originalMirrors : List Mirror) (roomNumber : ℕ) (mirrorChain : List String) :
    List VirtualImage :=
  (availableMirrors originalMirrors mirrorChain).attach.flatMap
    (fun mh =>
      createVirtualRoom bounds currentRoom mh.1 roomNumber mirrorChain ++
      calculateVirtualRoomsRecursive bounds (nextRoom currentRoom mh.1)
        originalMirrors (roomNumber + 1) (mirrorChain ++ [mh.1.id]))
termination_by (availableMirrors originalMirrors mirrorChain).length
decreasing_by
  have hm := mh.2
  have hsub : (availableMirrors originalMirrors (mirrorChain ++ [mh.1.id])).Sublist
      (availableMirrors originalMirrors mirrorChain) := by
    apply List.monotone_filter_right
    intro a ha
    simp only [decide_eq_true_eq, List.mem_append, List.mem_singleton] at *
    exact fun hc => ha (Or.inl hc)
  refine lt_of_le_of_ne hsub.length_le (fun hlen => ?_)
  have heq := hsub.eq_of_length hlen
  have hmem : mh.1 ∈ availableMirrors originalMirrors (mirrorChain ++ [mh.1.id]) := by
    rw [heq]; exact hm
  simp [availableMirrors, List.mem_filter] at hmem

/-- `Virtual.calculateVirtualImages`: entry point — start from the real
scene, room number 1, empty chain. -/
def calculateVirtualImages (scene : Scene) (bounds : Point) : List VirtualImage :=
  calculateVirtualRoomsRecursive bounds
    { player := scene.player, entities := scene.entities, mirrors := scene.mirrors }
    scene.mirrors 1 []

/-! ## Ray tracer (`src/ray.ts`) -/

/-- `Ray.EPSILON`. -/
def EPSILON : ℚ := 1 / 1000000

/-- `Ray.MAX_BOUNCES`. -/
def MAX_BOUNCES : ℕ := 10

/-- `Ray.Ray`: origin, initial direction, history of visited points
(origin first), and the optionally attached target entity id. -/
structure Ray where
  origin : Point
  direction : Point
  history : List Point
  entityId : Option String
deriving DecidableEq

/-- `Ray.Intersection`.  The stored normal is kept unnormalised (see the
header note); it is only ever consumed by `reflect`, which divides by its
squared length. -/
structure Intersection where
  point : Point
  distance : ℚ
  normal : Point
  mirrorId : Option String
  entityId : Option String
deriving DecidableEq

/-- `Ray.rayLineIntersection`: ray/segment intersection by 2D cross
products.  Rejects near-parallel configurations (`|cross1| < EPSILON`),
hits behind or at the origin (`t < EPSILON`) and segment parameters
outside `[0,1]`. -/
def rayLineIntersection (rayOrigin rayDirection lineStart lineEnd : Point) :
    Option Intersection :=
  let lineDir : Point := (lineEnd.1 - lineStart.1, lineEnd.2 - lineStart.2)
  let rayToLineStart : Point := (lineStart.1 - rayOrigin.1, lineStart.2 - rayOrigin.2)
  let cross1 := rayDirection.1 * lineDir.2 - rayDirection.2 * lineDir.1
  if |cross1| < EPSILON then none
  else
    let cross2 := rayToLineStart.1 * lineDir.2 - rayToLineStart.2 * lineDir.1
    let t := cross2 / cross1
    if t < EPSILON then none
    else
      let cross3 := rayToLineStart.1 * rayDirection.2 - rayToLineStart.2 * rayDirection.1
      let u := cross3 / cross1
      if u < 0 ∨ u > 1 then none
      else
        some { point := (rayOrigin.1 + rayDirection.1 * t, rayOrigin.2 + rayDirection.2 * t)
               distance := t
               normal := (-lineDir.2, lineDir.1)
               mirrorId := none
               entityId := none }

/-- `Ray.reflect`: specular reflection of a direction about a normal.  The
source receives a unit normal `n̂` and computes `d − 2·(d·n̂)·n̂`; with the
unnormalised normal this is `d − (2·(d·n)/(n·n))·n`, used here. -/
def reflect (direction normal : Point) : Point :=
  let d := direction.1 * normal.1 + direction.2 * normal.2
  let len2 := normal.1 * normal.1 + normal.2 * normal.2
  (direction.1 - 2 * d / len2 * normal.1, direction.2 - 2 * d / len2 * normal.2)

/-- `Ray.rayTriangleIntersection`: try the three edges in order with
`rayLineIntersection`; the first hit wins.  The returned outward normal
(chosen by the triangle's winding) is never consumed — entity hits
terminate the trace — and is kept unnormalised. -/
def rayTriangleIntersection (rayOrigin rayDirection : Point)
    (vertices : Point × Point × Point) : Option Intersection :=
  let v0 := vertices.1
  let v1 := vertices.2.1
  let v2 := vertices.2.2
  let firstHit :=
    match rayLineIntersection rayOrigin rayDirection v0 v1 with
    | some i => some i
    | none =>
      match rayLineIntersection rayOrigin rayDirection v1 v2 with
      | some i => some i
      | none => rayLineIntersection rayOrigin rayDirection v2 v0
  firstHit.map (fun edgeIntersection =>
    let edge1 : Point := (v1.1 - v0.1, v1.2 - v0.2)
    let edge2 : Point := (v2.1 - v0.1, v2.2 - v0.2)
    let cross := edge1.1 * edge2.2 - edge1.2 * edge2.1
    let normal : Point :=
      if cross > 0 then (edge2.2 - edge1.2, edge1.1 - edge2.1)
      else (edge1.2 - edge2.2, edge2.1 - edge1.1)
    { point := edgeIntersection.point
      distance := edgeIntersection.distance
      normal := normal
      mirrorId := none
      entityId := none })

/-- The `nearest`/`minDistance` update of `findNearestIntersection`:
replace the current nearest only by a strictly closer candidate
(`none` plays the role of `minDistance = Infinity`). -/
def updateNearest (acc cand : Option Intersection) : Option Intersection :=
  match cand with
  | none => acc
  | some c =>
    match acc with
    | none => some c
    | some b => if c.distance < b.distance then some c else acc

/-- `Ray.findNearestIntersection`: nearest hit over all mirrors then all
entities, tagging hits with the mirror/entity id.  The player-circle
branch (`ignorePlayer = false`) is omitted: the only call site
(`traceRay`) always passes `ignorePlayer = true`, and the dead branch is
the one place whose arithmetic (a square root of a distance) leaves `ℚ`. -/
def findNearestIntersection (rayOrigin rayDirection : Point) (scene : Scene) :
    Option Intersection :=
  let afterMirrors := scene.mirrors.foldl
    (fun acc mirror => updateNearest acc
      ((rayLineIntersection rayOrigin rayDirection mirror.start mirror.endp).map
        (fun i => { i with mirrorId := some mirror.id })))
    none
  scene.entities.foldl
    (fun acc entity => updateNearest acc
      ((rayTriangleIntersection rayOrigin rayDirection entity.vertices).map
        (fun i => { i with entityId := some entity.id })))
    afterMirrors

/-- The `while (bounces < maxBounces)` loop of `Ray.traceRay`, as a
recursion on the remaining bounce budget.  Returns the final history and
the accepted entity id.  A mirror hit reflects and recurses with
`bounces + 1` and `hitMirror = true`; an entity hit is accepted only when
`hitMirror` is already true; anything else (no intersection, or a direct
entity hit) returns `none`. -/
def traceLoop (scene : Scene) (maxBounces : ℕ) (currentOrigin currentDirection : Point)
    (history : List Point) (bounces : ℕ) (hitMirror : Bool) :
    Option (List Point × String) :=
  if _h : bounces < maxBounces then
    match findNearestIntersection currentOrigin currentDirection scene with
    | none => none
    | some intersection =>
      let history2 := history ++ [intersection.point]
      if strTruthy intersection.mirrorId then
        traceLoop scene maxBounces intersection.point
          (reflect currentDirection intersection.normal) history2 (bounces + 1) true
      else
        match intersection.entityId with
        | some entityId => if hitMirror && (entityId != "") then some (history2, entityId) else none
        | none => none
  else none
termination_by maxBounces - bounces
decreasing_by omega

/-- `Ray.traceRay`: run the bounce loop from the given origin/direction
(history starts as `[origin]`, zero bounces, `hitMirror = false`) and wrap
an accepted result into a `Ray`. -/
def traceRay (origin direction : Point) (scene : Scene) (maxBounces : ℕ) : Option Ray :=
  match traceLoop scene maxBounces origin direction [origin] 0 false with
  | some (history, entityId) =>
    some { origin := origin, direction := direction, history := history,
           entityId := some entityId }
  | none => none

/-- `Ray.lastIntersection`: `history[history.length − 1]`.  A traced ray's
history is created non-empty (it starts with the origin); the default is
never reached. -/
def lastIntersection (ray : Ray) : Point :=
  ray.history.getLastD ray.origin

/-- Squared Euclidean distance.  The source's selection comparator
subtracts `vec2.dist` values (square roots); comparing squared distances
orders identically, and stays in `ℚ`. -/
def dist2 (a b : Point) : ℚ :=
  (a.1 - b.1) * (a.1 - b.1) + (a.2 - b.2) * (a.2 - b.2)

/-- The surviving candidate rays of `Ray.trace`: one `traceRay` per
direction, kept when it resolved (`ray`), travelled
(`ray.history.length > 1`) and attached a (truthy) entity id. -/
def survivors (dirs : List Point) (scene : Scene) : List Ray :=
  dirs.filterMap (fun direction =>
    match traceRay scene.player.position direction scene MAX_BOUNCES with
    | some ray =>
      if 1 < ray.history.length && strTruthy ray.entityId then some ray else none
    | none => none)

/-- The `ray.sort(comparator)[0]` selection of `Ray.trace`: the stable
ascending sort's first element is the earliest element of minimal key, so
it is modelled as "keep the earlier element unless a strictly closer one
appears later". -/
def selectMin (entityPosition : Point) : List Ray → Option Ray
  | [] => none
  | ray :: rest =>
    match selectMin entityPosition rest with
    | none => some ray
    | some best =>
      if dist2 (lastIntersection best) entityPosition <
         dist2 (lastIntersection ray) entityPosition then some best else some ray

/-- `Ray.trace`: cast one ray per direction, keep the survivors, then for
each scene entity (in scene order) keep the single survivor targeting it
whose final history point is closest to the entity's position; entities
with no survivor are dropped (`filter(Boolean)`). -/
def trace (dirs : List Point) (scene : Scene) : List Ray :=
  let rays := survivors dirs scene
  scene.entities.filterMap (fun entity =>
    selectMin entity.position
      (rays.filter (fun ray => decide (ray.entityId = some entity.id))))

/-! ## Concrete scenes used for witnesses and counterexamples -/

/-- The single-mirror scenario of the spec's concrete test: viewer at
`(400,300)`, one mirror `mirror_1` spanning `(300,200)–(300,400)`. -/
def sceneC7 : Scene :=
  { player := { position := (400, 300) }
    entities := []
    mirrors := [{ id := "mirror_1", start := (300, 200), endp := (300, 400) }] }

/-- A scene with a long mirror whose midpoint lies far outside the bounds
rectangle while one endpoint lies inside. -/
def sceneC1 : Scene :=
  { player := { position := (0, 0) }
    entities := []
    mirrors := [{ id := "m1", start := (0, 0), endp := (0, 100) }] }

/-- The mirror image that `calculateVirtualImages sceneC1 (10, 10)` emits
for `m1` reflected across itself: position `(0, 50)`. -/
def mirrorImC1 : VirtualImage :=
  { originalId := "m1", originalType := .mirror, position := (0, 50)
    bounces := 1, isVisible := true, mirrorChain := ["m1"], virtualRoom := 1
    mirrorData := some ((0, 0), (0, 100)) }

/-- A scene where the horizontal ray from the player bounces off a 45°
mirror and then hits the entity above the mirror. -/
def sceneT : Scene :=
  { player := { position := (0, 0) }
    entities := [entityAt (10, 10) "e1"]
    mirrors := [{ id := "m1", start := (5, -5), endp := (15, 5) }] }

/-- The single direction used with `sceneT`. -/
def dirsT : List Point := [(1, 0)]

/-- The ray `trace dirsT sceneT` returns: origin, mirror hit `(10,0)`,
entity hit `(10,2)`. -/
def rayT : Ray :=
  { origin := (0, 0), direction := (1, 0)
    history := [(0, 0), (10, 0), (10, 2)], entityId := some "e1" }

/-- A mirrorless scene (with an entity the player sees directly). -/
def sceneNoMirror : Scene :=
  { player := { position := (0, 0) }
    entities := [entityAt (10, 10) "e1"]
    mirrors := [] }

/-- The bounds guarantee that emission enforces, by image type: player and
entity images have their position checked directly; a mirror image carries
reflected segment data and is kept when its start, end or midpoint (= the
emitted position) is in bounds. -/
def boundsOk (bounds : Point) (im : VirtualImage) : Prop :=
  match im.originalType with
  | .mirror => ∃ s e, im.mirrorData = some (s, e) ∧
      (isPointInBounds bounds s = true ∨ isPointInBounds bounds e = true ∨
       isPointInBounds bounds im.position = true)
  | _ => isPointInBounds bounds im.position = true

/-- `p` lies on the segment from `s` to `e` (with its affine parameter in
`[0, 1]`). -/
def onSegmentPts (p s e : Point) : Prop :=
  ∃ u : ℚ, 0 ≤ u ∧ u ≤ 1 ∧
    p.1 = s.1 + u * (e.1 - s.1) ∧ p.2 = s.2 + u * (e.2 - s.2)

/-- `p` lies on a mirror's segment. -/
def onSegment (p : Point) (m : Mirror) : Prop :=
  onSegmentPts p m.start m.endp

/-! ## Helper lemmas -/

/-- Appending the chosen mirror's id to the chain strictly shrinks the set
of available mirrors: this is the termination measure of
`calculateVirtualRoomsRecursive`. -/
theorem availableMirrors_decrease (originalMirrors : List Mirror)
    (mirrorChain : List String) (m : Mirror)
    (hm : m ∈ availableMirrors originalMirrors mirrorChain) :
    (availableMirrors originalMirrors (mirrorChain ++ [m.id])).length <
      (availableMirrors originalMirrors mirrorChain).length := by
  have hsub : (availableMirrors originalMirrors (mirrorChain ++ [m.id])).Sublist
      (availableMirrors originalMirrors mirrorChain) := by
    apply List.monotone_filter_right
    intro a ha
    simp only [decide_eq_true_eq, List.mem_append, List.mem_singleton] at *
    exact fun hc => ha (Or.inl hc)
  refine lt_of_le_of_ne hsub.length_le (fun hlen => ?_)
  have heq := hsub.eq_of_length hlen
  have hmem : m ∈ availableMirrors originalMirrors (mirrorChain ++ [m.id]) := by
    rw [heq]; exact hm
  simp [availableMirrors, List.mem_filter] at hmem


/-- Flat-mapping a function that ignores the membership proof over
`l.attach` is flat-mapping over `l`. -/
theorem attach_flatMap {α β : Type _} (l : List α) (f : α → List β) :
    l.attach.flatMap (fun x => f x.1) = l.flatMap f := by
  rw [show l.attach.flatMap (fun x => f x.1) = (l.attach.map Subtype.val).flatMap f by
    rw [List.flatMap_map]]
  rw [List.attach_map_subtype_val]

/-- Unfolding equation of `calculateVirtualRoomsRecursive` with the
`attach` (needed only for the termination argument) eliminated. -/
theorem calcRec_eq (bounds : Point) (currentRoom : Room) (originalMirrors : List Mirror)
    (roomNumber : ℕ) (mirrorChain : List String) :
    calculateVirtualRoomsRecursive bounds currentRoom originalMirrors roomNumber mirrorChain =
      (availableMirrors originalMirrors mirrorChain).flatMap
        (fun m =>
          createVirtualRoom bounds currentRoom m roomNumber mirrorChain ++
          calculateVirtualRoomsRecursive bounds (nextRoom currentRoom m)
            originalMirrors (roomNumber + 1) (mirrorChain ++ [m.id])) := by
  rw [calculateVirtualRoomsRecursive]
  exact attach_flatMap (availableMirrors originalMirrors mirrorChain)
    (fun m =>
      createVirtualRoom bounds currentRoom m roomNumber mirrorChain ++
      calculateVirtualRoomsRecursive bounds (nextRoom currentRoom m)
        originalMirrors (roomNumber + 1) (mirrorChain ++ [m.id]))

/-- Every image emitted directly by `createVirtualRoom` carries the chain
extended by the reflecting mirror's id, the current room number, and its
type's bounds guarantee. -/
theorem createVirtualRoom_spec {bounds : Point} {room : Room} {rm : Mirror}
    {n : ℕ} {chain : List String} {im : VirtualImage}
    (him : im ∈ createVirtualRoom bounds room rm n chain) :
    im.mirrorChain = chain ++ [rm.id] ∧ im.virtualRoom = n ∧ im.bounces = n ∧
      boundsOk bounds im := by
  simp only [createVirtualRoom, List.mem_append, List.mem_filterMap] at him
  rcases him with (him | ⟨e, _, he⟩) | ⟨m, _, hm⟩
  · split at him
    next hcond =>
      simp only [List.mem_singleton] at him
      subst him
      exact ⟨rfl, rfl, rfl, by simpa [boundsOk] using hcond⟩
    next => simp at him
  · split at he
    next hcond =>
      obtain rfl := Option.some_injective _ he
      exact ⟨rfl, rfl, rfl, by simpa [boundsOk] using hcond⟩
    next => simp at he
  · split at hm
    next hcond =>
      obtain rfl := Option.some_injective _ hm
      refine ⟨rfl, rfl, rfl, ?_⟩
      simp only [boundsOk]
      refine ⟨_, _, rfl, ?_⟩
      simpa [Bool.or_eq_true, or_assoc] using hcond
    next => simp at hm

/-- A duplicate-free list of elements drawn from another list is no longer
than it. -/
theorem nodup_subset_length {l l' : List String} (h : l.Nodup)
    (hs : ∀ s ∈ l, s ∈ l') : l.length ≤ l'.length :=
  calc l.length = l.toFinset.card := (List.toFinset_card_of_nodup h).symm
    _ ≤ l'.toFinset.card := Finset.card_le_card (by
        intro x hx; simp only [List.mem_toFinset] at *; exact hs x hx)
    _ ≤ l'.length := List.toFinset_card_le l'

/-- Master invariant of the virtual-room recursion: when entered with a
duplicate-free chain of original-mirror ids and room number
`chain.length + 1`, every emitted image has a duplicate-free, non-empty
chain of original-mirror ids, its room number equals its chain length, its
bounce count equals its room number, and it satisfies its type's bounds
guarantee. -/
theorem calcRec_spec (k : ℕ) (bounds : Point) (room : Room) (ms : List Mirror)
    (n : ℕ) (chain : List String)
    (hk : (availableMirrors ms chain).length ≤ k)
    (hnd : chain.Nodup) (hsub : ∀ s ∈ chain, s ∈ ms.map Mirror.id)
    (hn : n = chain.length + 1) :
    ∀ im ∈ calculateVirtualRoomsRecursive bounds room ms n chain,
      im.mirrorChain.Nodup ∧ (∀ s ∈ im.mirrorChain, s ∈ ms.map Mirror.id) ∧
      im.mirrorChain ≠ [] ∧ im.virtualRoom = im.mirrorChain.length ∧
      im.bounces = im.virtualRoom ∧ boundsOk bounds im := by
  induction k generalizing bounds room n chain with
  | zero =>
    intro im him
    rw [calcRec_eq] at him
    rw [List.length_eq_zero.mp (Nat.le_zero.mp hk)] at him
    simp at him
  | succ k ih =>
    intro im him
    rw [calcRec_eq] at him
    rw [List.mem_flatMap] at him
    obtain ⟨m, hmav, him⟩ := him
    have hmms : m ∈ ms := (List.mem_filter.mp hmav).1
    have hmid : m.id ∉ chain := by
      have := (List.mem_filter.mp hmav).2
      simpa using this
    have hnd' : (chain ++ [m.id]).Nodup := by
      simp [List.nodup_append, hnd, List.disjoint_singleton, hmid]
    have hsub' : ∀ s ∈ chain ++ [m.id], s ∈ ms.map Mirror.id := by
      intro s hs
      rcases List.mem_append.mp hs with hs | hs
      · exact hsub s hs
      · rw [List.mem_singleton] at hs
        subst hs
        exact List.mem_map.mpr ⟨m, hmms, rfl⟩
    rcases List.mem_append.mp him with him | him
    · obtain ⟨hchain, hroom, hbounce, hbok⟩ := createVirtualRoom_spec him
      refine ⟨hchain ▸ hnd', hchain ▸ hsub', ?_, ?_, ?_, hbok⟩
      · rw [hchain]; simp
      · rw [hchain, hroom, hn]; simp
      · rw [hbounce, hroom]
    · have hk' : (availableMirrors ms (chain ++ [m.id])).length ≤ k :=
        Nat.lt_succ_iff.mp (lt_of_lt_of_le (availableMirrors_decrease ms chain m hmav) hk)
      have hn' : n + 1 = (chain ++ [m.id]).length + 1 := by
        simp [hn]
      exact ih bounds (nextRoom room m) (n + 1) (chain ++ [m.id]) hk' hnd' hsub' hn' im him

/-- A successful `rayLineIntersection` returns a point that lies exactly on
the target segment: with exact arithmetic, `origin + t·dir` solves the
2×2 system, so it equals `start + u·(end − start)` with the accepted
`u ∈ [0, 1]`. -/
theorem rayLineIntersection_onSegment {o d s e : Point} {i : Intersection}
    (h : rayLineIntersection o d s e = some i) : onSegmentPts i.point s e := by
  simp only [rayLineIntersection] at h
  split at h
  · exact absurd h (by simp)
  · split at h
    · exact absurd h (by simp)
    · split at h
      · exact absurd h (by simp)
      · rename_i hc1 ht hu
        obtain rfl := Option.some_injective _ h
        have hcross1 : d.1 * (e.2 - s.2) - d.2 * (e.1 - s.1) ≠ 0 := by
          intro hz
          rw [hz] at hc1
          exact hc1 (by norm_num [EPSILON])
        rw [not_or, not_lt, not_lt] at hu
        refine ⟨((s.1 - o.1) * d.2 - (s.2 - o.2) * d.1) /
          (d.1 * (e.2 - s.2) - d.2 * (e.1 - s.1)), hu.1, hu.2, ?_, ?_⟩ <;>
          · field_simp
            ring

/-- `updateNearest` returns the accumulator or the candidate. -/
theorem updateNearest_cases {acc cand : Option Intersection} {i : Intersection}
    (h : updateNearest acc cand = some i) : acc = some i ∨ cand = some i := by
  unfold updateNearest at h
  split at h
  · exact Or.inl h
  · split at h
    · exact Or.inr h
    · split at h
      · exact Or.inr h
      · exact Or.inl h

/-- Any property that holds of the accumulator and of every candidate holds
of the result of the `nearest`-tracking fold. -/
theorem foldl_updateNearest_prop {α : Type _} (Q : Intersection → Prop)
    (f : α → Option Intersection) (l : List α) (acc : Option Intersection)
    (hacc : ∀ i, acc = some i → Q i)
    (hf : ∀ x ∈ l, ∀ i, f x = some i → Q i) :
    ∀ i, l.foldl (fun a x => updateNearest a (f x)) acc = some i → Q i := by
  induction l generalizing acc with
  | nil => exact hacc
  | cons x xs ih =>
    intro i hi
    refine ih (updateNearest acc (f x)) (fun j hj => ?_)
      (fun y hy => hf y (List.mem_cons_of_mem x hy)) i hi
    rcases updateNearest_cases hj with hj | hj
    · exact hacc j hj
    · exact hf x (List.mem_cons_self x xs) j hj

/-- A triangle intersection never carries a mirror id (and no entity id
until `findNearestIntersection` tags it). -/
theorem rayTriangleIntersection_ids {o d : Point} {v : Point × Point × Point}
    {i : Intersection} (h : rayTriangleIntersection o d v = some i) :
    i.mirrorId = none ∧ i.entityId = none := by
  simp only [rayTriangleIntersection, Option.map_eq_some'] at h
  obtain ⟨j0, -, rfl⟩ := h
  exact ⟨rfl, rfl⟩

/-- A nearest intersection carrying a mirror id hit a point on one of the
scene's mirror segments. -/
theorem findNearest_mirror_sound {o d : Point} {scene : Scene} {i : Intersection}
    (h : findNearestIntersection o d scene = some i)
    (hm : i.mirrorId.isSome) : ∃ m ∈ scene.mirrors, onSegment i.point m := by
  unfold findNearestIntersection at h
  revert hm
  refine foldl_updateNearest_prop
    (fun j => j.mirrorId.isSome → ∃ m ∈ scene.mirrors, onSegment j.point m) _ _ _
    ?_ ?_ i h
  · refine foldl_updateNearest_prop _ _ _ _ (by simp) (fun m hm j hj _ => ?_)
    simp only [Option.map_eq_some'] at hj
    obtain ⟨j0, hj0, rfl⟩ := hj
    have hseg := rayLineIntersection_onSegment hj0
    exact ⟨m, hm, hseg⟩
  · intro x hx j hj hms
    simp only [Option.map_eq_some'] at hj
    obtain ⟨j0, hj0, rfl⟩ := hj
    have := (rayTriangleIntersection_ids hj0).1
    simp [this] at hms

/-- With no mirrors in the scene, no intersection carries a mirror id. -/
theorem findNearest_noMirrors {o d : Point} {scene : Scene} {i : Intersection}
    (hms : scene.mirrors = []) (h : findNearestIntersection o d scene = some i) :
    i.mirrorId = none := by
  unfold findNearestIntersection at h
  rw [hms] at h
  refine foldl_updateNearest_prop (fun j => j.mirrorId = none) _ _ _ (by simp)
    (fun x hx j hj => ?_) i h
  simp only [Option.map_eq_some'] at hj
  obtain ⟨j0, hj0, rfl⟩ := hj
  exact (rayTriangleIntersection_ids hj0).1

/-- Length bound for the bounce loop: each iteration pushes one history
point, at most `maxB − b` iterations run, and acceptance happens inside an
iteration, so an accepted history gains at most `maxB − b` points. -/
theorem traceLoop_length (k : ℕ) :
    ∀ (scene : Scene) (maxB : ℕ) (o d : Point) (hist : List Point) (b : ℕ)
      (hm : Bool) (h : List Point) (eid : String),
    maxB - b ≤ k →
    traceLoop scene maxB o d hist b hm = some (h, eid) →
    h.length ≤ hist.length + (maxB - b) := by
  induction k with
  | zero =>
    intro scene maxB o d hist b hm h eid hk hres
    rw [traceLoop, dif_neg (by omega)] at hres
    exact absurd hres (by simp)
  | succ k ih =>
    intro scene maxB o d hist b hm h eid hk hres
    rw [traceLoop] at hres
    by_cases hb : b < maxB
    · rw [dif_pos hb] at hres
      cases hfn : findNearestIntersection o d scene with
      | none => rw [hfn] at hres; exact absurd hres (by simp)
      | some i =>
        rw [hfn] at hres
        dsimp only at hres
        cases hmir : strTruthy i.mirrorId with
        | true =>
          rw [if_pos hmir] at hres
          have hrec := ih scene maxB i.point (reflect d i.normal) (hist ++ [i.point])
            (b + 1) true h eid (by omega) hres
          simp only [List.length_append, List.length_singleton] at hrec ⊢
          omega
        | false =>
          rw [if_neg (by simp [hmir])] at hres
          cases heid : i.entityId with
          | none => rw [heid] at hres; exact absurd hres (by simp)
          | some eid' =>
            rw [heid] at hres
            dsimp only at hres
            by_cases hacc : (hm && (eid' != "")) = true
            · rw [if_pos hacc] at hres
              rw [Option.some.injEq, Prod.mk.injEq] at hres
              obtain ⟨hh, -⟩ := hres
              rw [← hh]
              simp only [List.length_append, List.length_singleton]
              omega
            · rw [if_neg hacc] at hres; exact absurd hres (by simp)
    · rw [dif_neg hb] at hres; exact absurd hres (by simp)

/-- Mirror-point invariant of the bounce loop: if `hitMirror` implies the
running history already contains a point on some scene mirror, then any
accepted history contains a point on some scene mirror (acceptance
requires `hitMirror = true`, and a mirror hit pushes the on-segment hit
point into the history). -/
theorem traceLoop_mirrorPoint (k : ℕ) :
    ∀ (scene : Scene) (maxB : ℕ) (o d : Point) (hist : List Point) (b : ℕ)
      (hm : Bool) (h : List Point) (eid : String),
    maxB - b ≤ k →
    (hm = true → ∃ m ∈ scene.mirrors, ∃ p ∈ hist, onSegment p m) →
    traceLoop scene maxB o d hist b hm = some (h, eid) →
    ∃ m ∈ scene.mirrors, ∃ p ∈ h, onSegment p m := by
  induction k with
  | zero =>
    intro scene maxB o d hist b hm h eid hk hinv hres
    rw [traceLoop, dif_neg (by omega)] at hres
    exact absurd hres (by simp)
  | succ k ih =>
    intro scene maxB o d hist b hm h eid hk hinv hres
    rw [traceLoop] at hres
    by_cases hb : b < maxB
    · rw [dif_pos hb] at hres
      cases hfn : findNearestIntersection o d scene with
      | none => rw [hfn] at hres; exact absurd hres (by simp)
      | some i =>
        rw [hfn] at hres
        dsimp only at hres
        cases hmir : strTruthy i.mirrorId with
        | true =>
          rw [if_pos hmir] at hres
          have hsome : i.mirrorId.isSome := by
            cases hmi : i.mirrorId with
            | none => rw [hmi] at hmir; simp [strTruthy] at hmir
            | some s => simp
          obtain ⟨m, hmmem, hseg⟩ := findNearest_mirror_sound hfn hsome
          exact ih scene maxB i.point (reflect d i.normal) (hist ++ [i.point])
            (b + 1) true h eid (by omega)
            (fun _ => ⟨m, hmmem, i.point, by simp, hseg⟩) hres
        | false =>
          rw [if_neg (by simp [hmir])] at hres
          cases heid : i.entityId with
          | none => rw [heid] at hres; exact absurd hres (by simp)
          | some eid' =>
            rw [heid] at hres
            dsimp only at hres
            by_cases hacc : (hm && (eid' != "")) = true
            · rw [if_pos hacc] at hres
              rw [Option.some.injEq, Prod.mk.injEq] at hres
              obtain ⟨hh, -⟩ := hres
              have hmtrue : hm = true := (Bool.and_eq_true _ _ ▸ hacc).1
              obtain ⟨m, hmmem, p, hp, hseg⟩ := hinv hmtrue
              exact ⟨m, hmmem, p, hh ▸ List.mem_append_left _ hp, hseg⟩
            · rw [if_neg hacc] at hres; exact absurd hres (by simp)
    · rw [dif_neg hb] at hres; exact absurd hres (by simp)

/-- With no mirrors, the bounce loop started with `hitMirror = false`
resolves nothing: the first intersection (if any) is an entity seen
directly, which is rejected. -/
theorem traceLoop_noMirrors {scene : Scene} (hms : scene.mirrors = [])
    (maxB : ℕ) (o d : Point) (hist : List Point) (b : ℕ) :
    traceLoop scene maxB o d hist b false = none := by
  rw [traceLoop]
  by_cases hb : b < maxB
  · rw [dif_pos hb]
    cases hfn : findNearestIntersection o d scene with
    | none => rfl
    | some i =>
      dsimp only
      rw [if_neg (by simp [findNearest_noMirrors hms hfn, strTruthy])]
      cases i.entityId with
      | none => rfl
      | some eid' => simp
  · rw [dif_neg hb]

/-- `selectMin` never returns an element from outside the list. -/
theorem selectMin_mem {p : Point} {l : List Ray} {r : Ray}
    (h : selectMin p l = some r) : r ∈ l := by
  induction l with
  | nil => exact absurd h (by simp [selectMin])
  | cons a rest ih =>
    rw [selectMin] at h
    cases hsm : selectMin p rest with
    | none =>
      rw [hsm] at h
      dsimp only at h
      obtain rfl := Option.some_injective _ h
      exact List.mem_cons_self a rest
    | some best =>
      rw [hsm] at h
      dsimp only at h
      split at h
      · obtain rfl := Option.some_injective _ h
        exact List.mem_cons_of_mem a (ih hsm)
      · obtain rfl := Option.some_injective _ h
        exact List.mem_cons_self a rest

/-- `selectMin` returns `none` exactly on the empty list. -/
theorem selectMin_eq_none {p : Point} {l : List Ray} :
    selectMin p l = none ↔ l = [] := by
  cases l with
  | nil => simp [selectMin]
  | cons a rest =>
    simp only [selectMin]
    cases hsm : selectMin p rest with
    | none => simp
    | some best =>
      dsimp only
      constructor
      · intro h
        split at h <;> exact absurd h (by simp)
      · intro h
        exact absurd h (by simp)

/-- `selectMin` returns a distance-minimal element. -/
theorem selectMin_min {p : Point} {l : List Ray} :
    ∀ {r : Ray}, selectMin p l = some r →
    ∀ r' ∈ l, dist2 (lastIntersection r) p ≤ dist2 (lastIntersection r') p := by
  induction l with
  | nil => intro r h; exact absurd h (by simp [selectMin])
  | cons a rest ih =>
    intro r h
    rw [selectMin] at h
    cases hsm : selectMin p rest with
    | none =>
      rw [hsm] at h
      dsimp only at h
      obtain rfl := Option.some_injective _ h
      obtain rfl := selectMin_eq_none.mp hsm
      intro r' hr'
      rw [List.mem_singleton.mp hr']
    | some best =>
      rw [hsm] at h
      dsimp only at h
      intro r' hr'
      rcases List.mem_cons.mp hr' with rfl | hr'
      · split at h
        next hlt =>
          obtain rfl := Option.some_injective _ h
          exact le_of_lt hlt
        next hnlt =>
          obtain rfl := Option.some_injective _ h
          exact le_refl _
      · split at h
        next hlt =>
          obtain rfl := Option.some_injective _ h
          exact ih hsm r' hr'
        next hnlt =>
          obtain rfl := Option.some_injective _ h
          exact le_trans (not_lt.mp hnlt) (ih hsm r' hr')

/-- What holds of every accepted `traceRay` result: a (truthy) entity id,
at most `1 + maxBounces` history points, at least two history points, and
a history point on some scene mirror. -/
theorem traceRay_spec {o d : Point} {scene : Scene} {maxB : ℕ} {r : Ray}
    (h : traceRay o d scene maxB = some r) :
    r.entityId.isSome ∧ r.history.length ≤ 1 + maxB ∧
    ∃ m ∈ scene.mirrors, ∃ p ∈ r.history, onSegment p m := by
  unfold traceRay at h
  cases htl : traceLoop scene maxB o d [o] 0 false with
  | none => rw [htl] at h; exact absurd h (by simp)
  | some pair =>
    obtain ⟨hist, eid⟩ := pair
    rw [htl] at h
    dsimp only at h
    obtain rfl := Option.some_injective _ h
    refine ⟨rfl, ?_, ?_⟩
    · have := traceLoop_length (maxB - 0) scene maxB o d [o] 0 false hist eid le_rfl htl
      simpa [Nat.add_comm] using this
    · exact traceLoop_mirrorPoint (maxB - 0) scene maxB o d [o] 0 false hist eid le_rfl
        (fun hfalse => absurd hfalse (by simp)) htl

/-- Membership in the survivor list: a survivor comes from `traceRay` on
some direction of the fan, has a more-than-one-point history and a truthy
entity id. -/
theorem survivors_mem {dirs : List Point} {scene : Scene} {r : Ray}
    (h : r ∈ survivors dirs scene) :
    1 < r.history.length ∧ strTruthy r.entityId = true ∧
    ∃ d ∈ dirs, traceRay scene.player.position d scene MAX_BOUNCES = some r := by
  unfold survivors at h
  rw [List.mem_filterMap] at h
  obtain ⟨d, hd, hfd⟩ := h
  cases htr : traceRay scene.player.position d scene MAX_BOUNCES with
  | none => rw [htr] at hfd; exact absurd hfd (by simp)
  | some ray =>
    rw [htr] at hfd
    dsimp only at hfd
    split at hfd
    next hcond =>
      obtain rfl := Option.some_injective _ hfd
      rw [Bool.and_eq_true, decide_eq_true_eq] at hcond
      exact ⟨hcond.1, hcond.2, d, hd, htr⟩
    next => exact absurd hfd (by simp)

/-- Membership in the `trace` output: each returned ray targets a scene
entity, is a survivor, and is distance-minimal among the survivors
targeting that entity. -/
theorem trace_mem {dirs : List Point} {scene : Scene} {r : Ray}
    (h : r ∈ trace dirs scene) :
    ∃ e ∈ scene.entities, r.entityId = some e.id ∧ r ∈ survivors dirs scene ∧
      ∀ r' ∈ survivors dirs scene, r'.entityId = some e.id →
        dist2 (lastIntersection r) e.position ≤ dist2 (lastIntersection r') e.position := by
  unfold trace at h
  rw [List.mem_filterMap] at h
  obtain ⟨e, he, hsel⟩ := h
  have hmem := selectMin_mem hsel
  rw [List.mem_filter, decide_eq_true_eq] at hmem
  refine ⟨e, he, hmem.2, hmem.1, fun r' hr' hid => ?_⟩
  exact selectMin_min hsel r' (List.mem_filter.mpr ⟨hr', by simp [hid]⟩)

/-- Mapping a `filterMap` whose produced values project back to the source
element's image yields a sublist of the mapped source. -/
theorem map_filterMap_sublist {α β γ : Type _} (g : α → Option β) (fb : β → γ)
    (fa : α → γ) (l : List α) (hgf : ∀ x r, g x = some r → fb r = fa x) :
    ((l.filterMap g).map fb).Sublist (l.map fa) := by
  induction l with
  | nil => simp
  | cons x xs ih =>
    cases hgx : g x with
    | none =>
      rw [List.filterMap_cons_none hgx, List.map_cons]
      exact ih.cons (fa x)
    | some rv =>
      rw [List.filterMap_cons_some hgx, List.map_cons, List.map_cons,
        hgf x rv hgx]
      exact ih.cons₂ (fa x)

/-- In a list whose images under `f` are pairwise distinct, at most one
element maps to any given value. -/
theorem nodup_map_filter_length {α β : Type _} [DecidableEq β] (f : α → β)
    (l : List α) (hnd : (l.map f).Nodup) (c : β) :
    (l.filter (fun x => decide (f x = c))).length ≤ 1 := by
  induction l with
  | nil => simp
  | cons x xs ih =>
    rw [List.map_cons, List.nodup_cons] at hnd
    by_cases hfx : f x = c
    · rw [List.filter_cons_of_pos (by simp [hfx])]
      have hempty : xs.filter (fun y => decide (f y = c)) = [] := by
        rcases hf : xs.filter (fun y => decide (f y = c)) with _ | ⟨y, ys⟩
        · rfl
        · exfalso
          have hy : y ∈ xs.filter (fun z => decide (f z = c)) := by
            rw [hf]; exact List.mem_cons_self y ys
          rw [List.mem_filter, decide_eq_true_eq] at hy
          refine hnd.1 ?_
          rw [hfx, ← hy.2]
          exact List.mem_map_of_mem f hy.1
      simp [hempty]
    · rw [List.filter_cons_of_neg (by simp [hfx])]
      exact ih hnd.2

/-! ### Concrete evaluation of the tracer on `sceneT` -/

/-- The horizontal ray from the origin hits `sceneT`'s mirror at `(10,0)`. -/
theorem sceneT_hit_mirror :
    rayLineIntersection (0, 0) (1, 0) (5, -5) (15, 5) =
    some { point := (10, 0), distance := 10, normal := (-10, 10)
           mirrorId := none, entityId := none } := by
  norm_num [rayLineIntersection, EPSILON]

/-- The horizontal ray from the origin misses `sceneT`'s entity triangle. -/
theorem sceneT_miss_entity :
    rayTriangleIntersection (0, 0) (1, 0) (entityAt (10, 10) "e1").vertices = none := by
  norm_num [rayTriangleIntersection, rayLineIntersection, entityAt, ENTITY_SIZE, EPSILON]

/-- First nearest-intersection query of the traced ray in `sceneT`. -/
theorem sceneT_fn1 :
    findNearestIntersection (0, 0) (1, 0) sceneT =
    some { point := (10, 0), distance := 10, normal := (-10, 10)
           mirrorId := some "m1", entityId := none } := by
  unfold findNearestIntersection
  have hm : sceneT.mirrors = [{ id := "m1", start := (5, -5), endp := (15, 5) }] := rfl
  have hent : sceneT.entities = [entityAt (10, 10) "e1"] := rfl
  rw [hm, hent]
  simp only [List.foldl_cons, List.foldl_nil]
  rw [sceneT_hit_mirror, sceneT_miss_entity]
  rfl

/-- The mirror reflection of the horizontal direction at `(10,0)` points
straight up. -/
theorem sceneT_reflect : reflect (1, 0) (-10, 10) = (0, 1) := by
  norm_num [reflect]

/-- The bounced ray leaves the mirror surface (`t = 0 < EPSILON`). -/
theorem sceneT_miss_mirror2 :
    rayLineIntersection (10, 0) (0, 1) (5, -5) (15, 5) = none := by
  norm_num [rayLineIntersection, EPSILON]

/-- The bounced ray hits the entity triangle's first edge at `(10,2)`. -/
theorem sceneT_hit_entity :
    rayTriangleIntersection (10, 0) (0, 1) (entityAt (10, 10) "e1").vertices =
    some { point := (10, 2), distance := 2, normal := (0, 16)
           mirrorId := none, entityId := none } := by
  norm_num [rayTriangleIntersection, rayLineIntersection, entityAt, ENTITY_SIZE, EPSILON]

/-- Second nearest-intersection query of the traced ray in `sceneT`. -/
theorem sceneT_fn2 :
    findNearestIntersection (10, 0) (0, 1) sceneT =
    some { point := (10, 2), distance := 2, normal := (0, 16)
           mirrorId := none, entityId := some "e1" } := by
  unfold findNearestIntersection
  have hm : sceneT.mirrors = [{ id := "m1", start := (5, -5), endp := (15, 5) }] := rfl
  have hent : sceneT.entities = [entityAt (10, 10) "e1"] := rfl
  rw [hm, hent]
  simp only [List.foldl_cons, List.foldl_nil]
  rw [sceneT_miss_mirror2, sceneT_hit_entity]
  rfl

/-- Full bounce-loop run in `sceneT`: mirror hit at `(10,0)`, then entity
hit at `(10,2)`, accepted with `hitMirror = true`. -/
theorem sceneT_loop :
    traceLoop sceneT MAX_BOUNCES (0, 0) (1, 0) [(0, 0)] 0 false =
    some ([(0, 0), (10, 0), (10, 2)], "e1") := by
  rw [traceLoop, dif_pos (by norm_num [MAX_BOUNCES]), sceneT_fn1]
  dsimp only
  rw [if_pos (by simp [strTruthy]), sceneT_reflect]
  rw [traceLoop, dif_pos (by norm_num [MAX_BOUNCES]), sceneT_fn2]
  dsimp only
  rw [if_neg (by simp [strTruthy])]
  rfl

/-- `traceRay` on `sceneT` accepts the two-hit ray `rayT`. -/
theorem sceneT_traceRay :
    traceRay sceneT.player.position (1, 0) sceneT MAX_BOUNCES = some rayT := by
  unfold traceRay
  have hpp : sceneT.player.position = ((0 : ℚ), (0 : ℚ)) := rfl
  rw [hpp, sceneT_loop]
  rfl

/-- Full evaluation of the tracer on `sceneT`: exactly the ray `rayT`
survives and is selected for entity `e1`. -/
theorem traceT_eval : trace dirsT sceneT = [rayT] := by
  have hsurv : survivors dirsT sceneT = [rayT] := by
    unfold survivors dirsT
    rw [List.filterMap_cons]
    rw [sceneT_traceRay]
    rfl
  unfold trace
  rw [hsurv]
  rfl

/-! ## Claim theorems -/

/-- **C9.** Reflection across a mirror with distinct endpoints is an
involution: `reflectPointAcrossMirror` applied twice returns the original
point (exactly, in the rational-arithmetic embedding). -/
theorem claim_C9 (p : Point) (m : Mirror) (h : m.start ≠ m.endp) :
    reflectPointAcrossMirror (reflectPointAcrossMirror p m) m = p := by
  obtain ⟨px, py⟩ := p
  obtain ⟨mid, ⟨sx, sy⟩, ⟨ex, ey⟩⟩ := m
  have hL : (ex - sx) * (ex - sx) + (ey - sy) * (ey - sy) ≠ 0 := by
    intro hc
    apply h
    have h1 : ex - sx = 0 := by nlinarith [sq_nonneg (ex - sx), sq_nonneg (ey - sy)]
    have h2 : ey - sy = 0 := by nlinarith [sq_nonneg (ex - sx), sq_nonneg (ey - sy)]
    simp only [Prod.mk.injEq]
    constructor <;> [linarith; linarith]
  simp only [reflectPointAcrossMirror]
  field_simp
  constructor <;> ring

/-- Witness for C9 at the point `(3, 4)` and the horizontal mirror from
`(0, 0)` to `(1, 0)`: reflecting twice returns `(3, 4)`. -/
theorem claim_C9_witness :
    ((0, 0) : Point) ≠ ((1, 0) : Point) ∧
    reflectPointAcrossMirror
      (reflectPointAcrossMirror (3, 4) { id := "w", start := (0, 0), endp := (1, 0) })
      { id := "w", start := (0, 0), endp := (1, 0) } = (3, 4) :=
  ⟨by norm_num [Prod.ext_iff],
   claim_C9 (3, 4) { id := "w", start := (0, 0), endp := (1, 0) } (by norm_num [Prod.ext_iff])⟩

/-- **C7.** On the concrete single-mirror scene (viewer `(400,300)`,
mirror `mirror_1` from `(300,200)` to `(300,400)`, bounds half-extents
`(400,300)`), `calculateVirtualImages` emits exactly one player-type
image: bounce count 1, chain `["mirror_1"]`, position `(200,300)`. -/
theorem claim_C7 :
    (calculateVirtualImages sceneC7 (400, 300)).filter
      (fun im => decide (im.originalType = OriginalType.player)) =
    [{ originalId := "player", originalType := .player, position := (200, 300)
       bounces := 1, isVisible := true, mirrorChain := ["mirror_1"], virtualRoom := 1
       mirrorData := none }] := by
  have h1 : availableMirrors sceneC7.mirrors [] = sceneC7.mirrors := by
    simp [availableMirrors, sceneC7]
  have h2 : availableMirrors sceneC7.mirrors ["mirror_1"] = [] := by
    simp [availableMirrors, sceneC7]
  have hp : reflectPointAcrossMirror (400, 300)
      { id := "mirror_1", start := (300, 200), endp := (300, 400) } = (200, 300) := by
    norm_num [reflectPointAcrossMirror]
  have hs : reflectPointAcrossMirror (300, 200)
      { id := "mirror_1", start := (300, 200), endp := (300, 400) } = (300, 200) := by
    norm_num [reflectPointAcrossMirror]
  have he : reflectPointAcrossMirror (300, 400)
      { id := "mirror_1", start := (300, 200), endp := (300, 400) } = (300, 400) := by
    norm_num [reflectPointAcrossMirror]
  rw [calculateVirtualImages, calcRec_eq]
  simp only [sceneC7] at h1 h2 ⊢
  rw [h1]
  simp only [List.flatMap_cons, List.flatMap_nil, List.append_nil]
  rw [calcRec_eq]
  simp only [nextRoom, List.map_cons, List.map_nil, reflectMirrorAcrossMirror, hp, hs, he,
    List.nil_append]
  rw [h2]
  simp only [List.flatMap_nil, List.append_nil, createVirtualRoom, hp, hs, he,
    reflectMirrorAcrossMirror, List.filterMap_nil, List.filterMap_cons]
  norm_num [isPointInBounds, List.filter]
  rfl

/-- Full evaluation of the virtual images of `sceneC1` with bounds
half-extents `(10, 10)`: the reflected player at `(0, 0)` and the mirror
`m1` reflected across itself, whose emitted position is the midpoint
`(0, 50)` — outside the validity rectangle `[-10, 20] × [-10, 20]` — kept
because its start endpoint `(0, 0)` is inside. -/
theorem virtC1_eval :
    calculateVirtualImages sceneC1 (10, 10) =
    [{ originalId := "player", originalType := .player, position := (0, 0)
       bounces := 1, isVisible := true, mirrorChain := ["m1"], virtualRoom := 1
       mirrorData := none },
     mirrorImC1] := by
  have h1 : availableMirrors sceneC1.mirrors [] = sceneC1.mirrors := by
    simp [availableMirrors, sceneC1]
  have h2 : availableMirrors sceneC1.mirrors ["m1"] = [] := by
    simp [availableMirrors, sceneC1]
  have hp : reflectPointAcrossMirror (0, 0)
      { id := "m1", start := (0, 0), endp := (0, 100) } = (0, 0) := by
    norm_num [reflectPointAcrossMirror]
  have he : reflectPointAcrossMirror (0, 100)
      { id := "m1", start := (0, 0), endp := (0, 100) } = (0, 100) := by
    norm_num [reflectPointAcrossMirror]
  rw [calculateVirtualImages, calcRec_eq]
  simp only [sceneC1] at h1 h2 ⊢
  rw [h1]
  simp only [List.flatMap_cons, List.flatMap_nil, List.append_nil]
  rw [calcRec_eq]
  simp only [nextRoom, List.map_cons, List.map_nil, reflectMirrorAcrossMirror, hp, he,
    List.nil_append]
  rw [h2]
  simp only [List.flatMap_nil, List.append_nil, createVirtualRoom, hp, he,
    reflectMirrorAcrossMirror, List.filterMap_nil, List.filterMap_cons]
  norm_num [isPointInBounds, mirrorImC1]

/-- **C1, counterexample.**  On `sceneC1` with bounds `(10, 10)`,
`calculateVirtualImages` emits the mirror image `mirrorImC1` whose
position `(0, 50)` lies outside `[-10, 2·10] × [-10, 2·10]`
(its y-coordinate exceeds `2·height = 20`). -/
theorem claim_C1_counterexample :
    mirrorImC1 ∈ calculateVirtualImages sceneC1 (10, 10) ∧
    2 * 10 < mirrorImC1.position.2 := by
  rw [virtC1_eval]
  constructor
  · simp
  · norm_num [mirrorImC1]

/-- **C2, counterexample.**  On `sceneC1` with bounds `(10, 10)`,
`calculateVirtualImages` emits a mirror-type image whose `originalId`
equals the last (and only) id of its own mirror chain: the reflecting
mirror `m1` itself, reflected across itself. -/
theorem claim_C2_counterexample :
    mirrorImC1 ∈ calculateVirtualImages sceneC1 (10, 10) ∧
    mirrorImC1.originalType = OriginalType.mirror ∧
    mirrorImC1.mirrorChain.getLast? = some mirrorImC1.originalId := by
  rw [virtC1_eval]
  refine ⟨by simp, rfl, rfl⟩

/-- **C1, amended.**  Every player- or entity-type VirtualImage emitted by
`calculateVirtualImages` has its position inside
`[-width, 2·width] × [-height, 2·height]`; a mirror-type image instead
has its reflected start, end or midpoint inside that rectangle, and its
position (the reflected midpoint) may lie outside. -/
theorem claim_C1 (scene : Scene) (bounds : Point) (im : VirtualImage)
    (him : im ∈ calculateVirtualImages scene bounds) : boundsOk bounds im := by
  have h := calcRec_spec (availableMirrors scene.mirrors []).length bounds
    { player := scene.player, entities := scene.entities, mirrors := scene.mirrors }
    scene.mirrors 1 [] le_rfl List.nodup_nil (by simp) (by simp) im him
  exact h.2.2.2.2.2

/-- Witness for C1 at `sceneC1`, bounds `(10, 10)`, image `mirrorImC1`. -/
theorem claim_C1_witness : boundsOk (10, 10) mirrorImC1 :=
  claim_C1 sceneC1 (10, 10) mirrorImC1 (by rw [virtC1_eval]; simp)

/-- **C2, amended.**  A mirror id already in the chain is never reused as
the reflecting mirror: every emitted VirtualImage has a non-empty mirror
chain whose last id (the mirror that produced the image's room) does not
occur earlier in the chain.  (The as-stated claim fails — see the
counterexample — because the reflecting mirror itself, being part of the
current room, *is* reflected across itself and emitted as a mirror-type
image whose `originalId` equals the last chain id.) -/
theorem claim_C2 (scene : Scene) (bounds : Point) (im : VirtualImage)
    (him : im ∈ calculateVirtualImages scene bounds) :
    im.mirrorChain ≠ [] ∧
    ∀ lid, im.mirrorChain.getLast? = some lid → lid ∉ im.mirrorChain.dropLast := by
  have h := calcRec_spec (availableMirrors scene.mirrors []).length bounds
    { player := scene.player, entities := scene.entities, mirrors := scene.mirrors }
    scene.mirrors 1 [] le_rfl List.nodup_nil (by simp) (by simp) im him
  obtain ⟨hnd, -, hne, -⟩ := h
  refine ⟨hne, fun lid hlid hmem => ?_⟩
  rw [List.getLast?_eq_getLast _ hne, Option.some.injEq] at hlid
  subst hlid
  have hsplit := List.dropLast_append_getLast hne
  rw [← hsplit, List.nodup_append] at hnd
  exact (hnd.2.2 hmem) (List.mem_singleton.mpr rfl)

/-- Witness for C2 at `sceneC1`, bounds `(10, 10)`, image `mirrorImC1`. -/
theorem claim_C2_witness :
    mirrorImC1.mirrorChain ≠ [] ∧ "m1" ∉ mirrorImC1.mirrorChain.dropLast :=
  ⟨(claim_C2 sceneC1 (10, 10) mirrorImC1 (by rw [virtC1_eval]; simp)).1,
   (claim_C2 sceneC1 (10, 10) mirrorImC1 (by rw [virtC1_eval]; simp)).2 "m1"
     (by simp [mirrorImC1])⟩

/-- **C5.**  Every VirtualImage emitted by `calculateVirtualImages` has a
mirror chain without repeated mirror ids, and hence, for a scene with `M`
mirrors, a chain of length at most `M`. -/
theorem claim_C5 (scene : Scene) (bounds : Point) (im : VirtualImage)
    (him : im ∈ calculateVirtualImages scene bounds) :
    im.mirrorChain.Nodup ∧ im.mirrorChain.length ≤ scene.mirrors.length := by
  have h := calcRec_spec (availableMirrors scene.mirrors []).length bounds
    { player := scene.player, entities := scene.entities, mirrors := scene.mirrors }
    scene.mirrors 1 [] le_rfl List.nodup_nil (by simp) (by simp) im him
  obtain ⟨hnd, hsub, -⟩ := h
  refine ⟨hnd, ?_⟩
  have := nodup_subset_length hnd hsub
  simpa using this

/-- Witness for C5 at `sceneC1`, bounds `(10, 10)`, image `mirrorImC1`. -/
theorem claim_C5_witness :
    mirrorImC1.mirrorChain.Nodup ∧ mirrorImC1.mirrorChain.length ≤ sceneC1.mirrors.length :=
  claim_C5 sceneC1 (10, 10) mirrorImC1 (by rw [virtC1_eval]; simp)

/-- **C6.**  Termination of `calculateVirtualImages`: choosing a mirror
still available for a chain strictly shrinks the set of available mirrors
(first conjunct: the well-founded measure of
`calculateVirtualRoomsRecursive`, so the recursion depth is bounded by the
mirror count), and consequently every emitted image's room number is at
most the scene's mirror count (second conjunct). -/
theorem claim_C6 :
    (∀ (ms : List Mirror) (chain : List String) (m : Mirror),
      m ∈ availableMirrors ms chain →
      (availableMirrors ms (chain ++ [m.id])).length <
        (availableMirrors ms chain).length) ∧
    (∀ (scene : Scene) (bounds : Point) (im : VirtualImage),
      im ∈ calculateVirtualImages scene bounds →
      im.virtualRoom ≤ scene.mirrors.length) := by
  refine ⟨availableMirrors_decrease, fun scene bounds im him => ?_⟩
  have h := calcRec_spec (availableMirrors scene.mirrors []).length bounds
    { player := scene.player, entities := scene.entities, mirrors := scene.mirrors }
    scene.mirrors 1 [] le_rfl List.nodup_nil (by simp) (by simp) im him
  obtain ⟨hnd, hsub, -, hroom, -⟩ := h
  rw [hroom]
  have := nodup_subset_length hnd hsub
  simpa using this

/-- **C3.**  Every ray returned by `trace` has at least two history
points, an attached entity id, and a history point lying on some mirror
segment of the scene (it bounced at least once): direct sightlines never
appear. -/
theorem claim_C3 (dirs : List Point) (scene : Scene) (r : Ray)
    (h : r ∈ trace dirs scene) :
    2 ≤ r.history.length ∧ r.entityId.isSome ∧
    ∃ m ∈ scene.mirrors, ∃ p ∈ r.history, onSegment p m := by
  obtain ⟨e, he, hid, hsurv, -⟩ := trace_mem h
  obtain ⟨hlen, -, d, -, htr⟩ := survivors_mem hsurv
  have hspec := traceRay_spec htr
  exact ⟨hlen, hspec.1, hspec.2.2⟩

/-- **C10.**  Every ray returned by `trace` has at most 11 history points
(origin, at most 9 mirror hits, final entity hit), i.e. it underwent at
most `11 − 2 = 9` mirror reflections — strictly below `MAX_BOUNCES = 10`,
because the loop exits once the bounce counter reaches 10 before a further
entity hit can be recorded. -/
theorem claim_C10 (dirs : List Point) (scene : Scene) (r : Ray)
    (h : r ∈ trace dirs scene) :
    2 ≤ r.history.length ∧ r.history.length ≤ 11 := by
  obtain ⟨e, he, hid, hsurv, -⟩ := trace_mem h
  obtain ⟨hlen, -, d, -, htr⟩ := survivors_mem hsurv
  have hspec := traceRay_spec htr
  refine ⟨hlen, ?_⟩
  have := hspec.2.1
  norm_num [MAX_BOUNCES] at this
  exact this

/-- **C8.**  On a scene with no mirrors, `trace` returns the empty list
(no ray can ever satisfy the has-bounced requirement) and
`calculateVirtualImages` returns the empty list; both degrade gracefully
rather than failing. -/
theorem claim_C8 (scene : Scene) (dirs : List Point) (bounds : Point)
    (hms : scene.mirrors = []) :
    trace dirs scene = [] ∧ calculateVirtualImages scene bounds = [] := by
  constructor
  · have hsurv : survivors dirs scene = [] := by
      unfold survivors
      rw [List.filterMap_eq_nil_iff]
      intro d hd
      unfold traceRay
      rw [traceLoop_noMirrors hms]
    unfold trace
    rw [hsurv]
    rw [List.filterMap_eq_nil_iff]
    intro e he
    rw [List.filter_nil]
    rfl
  · rw [calculateVirtualImages, calcRec_eq, hms]
    simp [availableMirrors]

/-- **C4.**  One ray per entity: the entity ids of the rays returned by
`trace` follow the scene's entity order (as a sublist of it); every
returned ray is a distance-minimal survivor for the entity it targets;
every entity with at least one surviving candidate is represented; and
when entity ids are unique, at most one returned ray targets any given
id. -/
theorem claim_C4 (dirs : List Point) (scene : Scene) :
    ((trace dirs scene).map Ray.entityId).Sublist
      (scene.entities.map (fun e => some e.id)) ∧
    (∀ r ∈ trace dirs scene, ∃ e ∈ scene.entities, r.entityId = some e.id ∧
      r ∈ survivors dirs scene ∧
      ∀ r' ∈ survivors dirs scene, r'.entityId = some e.id →
        dist2 (lastIntersection r) e.position ≤
          dist2 (lastIntersection r') e.position) ∧
    (∀ e ∈ scene.entities, (∃ r ∈ survivors dirs scene, r.entityId = some e.id) →
      ∃ r ∈ trace dirs scene, r.entityId = some e.id) ∧
    ((scene.entities.map Entity.id).Nodup → ∀ c : Option String,
      ((trace dirs scene).filter (fun r => decide (r.entityId = c))).length ≤ 1) := by
  refine ⟨?_, fun r hr => trace_mem hr, ?_, ?_⟩
  · unfold trace
    refine map_filterMap_sublist _ Ray.entityId _ scene.entities ?_
    intro e r hgr
    have hmem := selectMin_mem hgr
    rw [List.mem_filter, decide_eq_true_eq] at hmem
    exact hmem.2
  · intro e he ⟨r, hr, hid⟩
    have hne : (survivors dirs scene).filter
        (fun r' => decide (r'.entityId = some e.id)) ≠ [] := by
      intro hnil
      have : r ∈ (survivors dirs scene).filter
          (fun r' => decide (r'.entityId = some e.id)) :=
        List.mem_filter.mpr ⟨hr, by simp [hid]⟩
      rw [hnil] at this
      exact absurd this (by simp)
    cases hsel : selectMin e.position ((survivors dirs scene).filter
        (fun r' => decide (r'.entityId = some e.id))) with
    | none => exact absurd (selectMin_eq_none.mp hsel) hne
    | some r0 =>
      have hr0 := selectMin_mem hsel
      rw [List.mem_filter, decide_eq_true_eq] at hr0
      refine ⟨r0, ?_, hr0.2⟩
      unfold trace
      rw [List.mem_filterMap]
      exact ⟨e, he, hsel⟩
  · intro hids c
    have hsubl : ((trace dirs scene).map Ray.entityId).Sublist
        (scene.entities.map (fun e => some e.id)) := by
      unfold trace
      refine map_filterMap_sublist _ Ray.entityId _ scene.entities ?_
      intro e r hgr
      have hmem := selectMin_mem hgr
      rw [List.mem_filter, decide_eq_true_eq] at hmem
      exact hmem.2
    have hnd2 : (scene.entities.map (fun e => some e.id)).Nodup := by
      rw [show (fun e : Entity => some e.id) = some ∘ Entity.id from rfl,
        ← List.map_map]
      exact hids.map (Option.some_injective _)
    have hnd : ((trace dirs scene).map Ray.entityId).Nodup := hsubl.nodup hnd2
    exact nodup_map_filter_length Ray.entityId (trace dirs scene) hnd c

/-- Witness for C3 at `sceneT` and the single-direction fan `dirsT`:
the returned ray `rayT` satisfies all three conjuncts. -/
theorem claim_C3_witness :
    2 ≤ rayT.history.length ∧ rayT.entityId.isSome ∧
    ∃ m ∈ sceneT.mirrors, ∃ p ∈ rayT.history, onSegment p m :=
  claim_C3 dirsT sceneT rayT (by rw [traceT_eval]; simp)

/-- Witness for C10 at `sceneT`: the returned ray `rayT` has between 2 and
11 history points. -/
theorem claim_C10_witness :
    2 ≤ rayT.history.length ∧ rayT.history.length ≤ 11 :=
  claim_C10 dirsT sceneT rayT (by rw [traceT_eval]; simp)

/-- Witness for C4 at `sceneT`: its entity ids are unique and at most one
returned ray targets entity `e1`. -/
theorem claim_C4_witness :
    (sceneT.entities.map Entity.id).Nodup ∧
    ((trace dirsT sceneT).filter
      (fun r => decide (r.entityId = some "e1"))).length ≤ 1 :=
  ⟨by simp [sceneT, entityAt],
   (claim_C4 dirsT sceneT).2.2.2 (by simp [sceneT, entityAt]) (some "e1")⟩

/-- Witness for C8 at the mirrorless `sceneNoMirror`: both entry points
return the empty list. -/
theorem claim_C8_witness :
    sceneNoMirror.mirrors = [] ∧ trace dirsT sceneNoMirror = [] ∧
    calculateVirtualImages sceneNoMirror (10, 10) = [] :=
  ⟨rfl, (claim_C8 sceneNoMirror dirsT (10, 10) rfl).1,
   (claim_C8 sceneNoMirror dirsT (10, 10) rfl).2⟩

/-- Witness for C6: the measure decrease at the concrete mirror list of
`sceneC1` with the empty chain, and the room bound at `mirrorImC1`. -/
theorem claim_C6_witness :
    (availableMirrors sceneC1.mirrors ([] ++ ["m1"])).length <
      (availableMirrors sceneC1.mirrors []).length ∧
    mirrorImC1.virtualRoom ≤ sceneC1.mirrors.length :=
  ⟨claim_C6.1 sceneC1.mirrors [] { id := "m1", start := (0, 0), endp := (0, 100) }
     (by simp [availableMirrors, sceneC1]),
   claim_C6.2 sceneC1 (10, 10) mirrorImC1 (by rw [virtC1_eval]; simp)⟩

end Optics
